import Mathlib

/-!
Verification of the 2D character-movement core of the repository
(`src/src/Character.js`), together with the fixed-step variant found in
`src/unnamed/part_000`.

Modelling choices:
* JavaScript numbers holding positions and boundary bounds may be
  `±Infinity` (the constructor's default boundary is infinite), so those
  fields are modelled as `EReal`.  Speed, direction components and the
  time delta are finite in every scenario the specification covers and
  are modelled as `ℝ`.
* `Math.sqrt`, `Math.min`, `Math.max` become `Real.sqrt`, `min`, `max`.
* Methods mutating `this` become functions `Character → ... → Character`.
-/

/-- The boundary record `{minX, maxX, minY, maxY}` of `Character.js`;
each bound is a JS number, possibly `±Infinity`. -/
structure Boundary where
  minX : EReal
  maxX : EReal
  minY : EReal
  maxY : EReal

/-- The default boundary installed by the constructor when no boundary is
given: `{minX: -Infinity, maxX: Infinity, minY: -Infinity, maxY: Infinity}`. -/
def defaultBoundary : Boundary :=
  { minX := ⊥, maxX := ⊤, minY := ⊥, maxY := ⊤ }

/-- The state of a `Character` from `src/src/Character.js`: position
`(x, y)`, `speed`, `direction` (components `dirx`, `diry`) and `boundary`. -/
structure Character where
  x : EReal
  y : EReal
  speed : ℝ
  dirx : ℝ
  diry : ℝ
  boundary : Boundary

/-- The constructor
`constructor(startX = 0, startY = 0, speed = 10, boundary)`:
direction starts at `(0, 0)`; an absent boundary becomes `defaultBoundary`
via `boundary || {...}`. -/
def mkCharacter (startX startY : EReal) (speed : ℝ)
    (boundary : Option Boundary) : Character :=
  { x := startX, y := startY, speed := speed, dirx := 0, diry := 0,
    boundary := boundary.getD defaultBoundary }

/-- `Character.update(deltaTime)` from `src/src/Character.js`:
`movement = direction * speed * (deltaTime / 1000)` per axis, then the
candidate `position + movement` is clamped with
`Math.max(boundary.min, Math.min(boundary.max, new))` per axis. -/
noncomputable def Character.update (c : Character) (deltaTime : ℝ) : Character :=
  let movementX : ℝ := c.dirx * c.speed * (deltaTime / 1000)
  let movementY : ℝ := c.diry * c.speed * (deltaTime / 1000)
  let newX : EReal := max c.boundary.minX (min c.boundary.maxX (c.x + (movementX : EReal)))
  let newY : EReal := max c.boundary.minY (min c.boundary.maxY (c.y + (movementY : EReal)))
  { c with x := newX, y := newY }

/-- `Character.setDirection(x, y)` from `src/src/Character.js`:
`length = Math.sqrt(x*x + y*y)`; if `length > 0` store
`(x/length, y/length)`, else store `(0, 0)`. -/
noncomputable def Character.setDirection (c : Character) (dx dy : ℝ) : Character :=
  let length := Real.sqrt (dx * dx + dy * dy)
  if length > 0 then
    { c with dirx := dx / length, diry := dy / length }
  else
    { c with dirx := 0, diry := 0 }

/-- `Character.setSpeed(newSpeed)` from `src/src/Character.js`:
`this.speed = Math.max(0, newSpeed)`. -/
def Character.setSpeed (c : Character) (newSpeed : ℝ) : Character :=
  { c with speed := max 0 newSpeed }

/-- The body of `Character.isCollidingWith(other, radius = 32)` evaluated
at two finite points `a` and `b`:
`distance = Math.sqrt(dx*dx + dy*dy)`, result `distance < radius * 2`. -/
noncomputable def isCollidingWith (a b : ℝ × ℝ) (radius : ℝ := 32) : Prop :=
  Real.sqrt ((a.1 - b.1) * (a.1 - b.1) + (a.2 - b.2) * (a.2 - b.2)) < radius * 2

/-- The fixed-step `Character.update()` of `src/unnamed/part_000`:
ignores delta time; per pressed axis sign it moves a fixed 10 units and
clamps against the single bound on that side. -/
noncomputable def Character.updateFixed (c : Character) : Character :=
  let x1 : EReal := if c.dirx < 0 then max c.boundary.minX (c.x - (10 : ℝ)) else c.x
  let x2 : EReal := if c.dirx > 0 then min c.boundary.maxX (x1 + (10 : ℝ)) else x1
  let y1 : EReal := if c.diry < 0 then max c.boundary.minY (c.y - (10 : ℝ)) else c.y
  let y2 : EReal := if c.diry > 0 then min c.boundary.maxY (y1 + (10 : ℝ)) else y1
  { c with x := x2, y := y2 }

/-- `setDirection(x, y)` of `src/unnamed/part_000`: stores the raw input,
no normalization. -/
def Character.setDirectionRaw (c : Character) (dx dy : ℝ) : Character :=
  { c with dirx := dx, diry := dy }

/-- C6: after `setSpeed(newSpeed)` the stored speed equals
`max(0, newSpeed)`; a negative `newSpeed` is clamped to `0`, and the
stored speed is always `≥ 0` after any `setSpeed`. -/
theorem setSpeed_clamps_to_nonneg (c : Character) (newSpeed : ℝ) :
    (c.setSpeed newSpeed).speed = max 0 newSpeed ∧
    (newSpeed < 0 → (c.setSpeed newSpeed).speed = 0) ∧
    0 ≤ (c.setSpeed newSpeed).speed := by
  refine ⟨rfl, fun h => ?_, le_max_left _ _⟩
  simp [Character.setSpeed, max_eq_left h.le]

/-- A lower bound that is finite or `-∞`, and an upper bound that is finite
or `+∞`, with `min ≤ max` whenever both are finite, are ordered in `EReal`. -/
lemma boundsLe {lo hi : EReal} (hm : lo ≠ ⊤) (hM : hi ≠ ⊥)
    (h : ∀ a b : ℝ, lo = a → hi = b → a ≤ b) : lo ≤ hi := by
  induction lo using EReal.rec with
  | h_bot => exact bot_le
  | h_top => exact absurd rfl hm
  | h_real a =>
    induction hi using EReal.rec with
    | h_bot => exact absurd rfl hM
    | h_top => exact le_top
    | h_real b => exact EReal.coe_le_coe_iff.mpr (h a b rfl rfl)

/-- Clamping with ordered bounds lands in the closed interval. -/
lemma clamp_mem {lo hi : EReal} (h : lo ≤ hi) (v : EReal) :
    lo ≤ max lo (min hi v) ∧ max lo (min hi v) ≤ hi :=
  ⟨le_max_left _ _, max_le h (min_le_left _ _)⟩

/-- C1: for every starting position, boundary satisfying the declared
invariant (each min bound finite or `-∞`, each max bound finite or `+∞`,
`min ≤ max` when both finite), unit-or-zero direction, speed `≥ 0` and
`deltaTimeMs ≥ 0`, the position produced by `update` lies within
`[minX, maxX] × [minY, maxY]`, bounds included. -/
theorem update_within_boundary (c : Character) (dt : ℝ)
    (hxm : c.boundary.minX ≠ ⊤) (hxM : c.boundary.maxX ≠ ⊥)
    (hx : ∀ a b : ℝ, c.boundary.minX = a → c.boundary.maxX = b → a ≤ b)
    (hym : c.boundary.minY ≠ ⊤) (hyM : c.boundary.maxY ≠ ⊥)
    (hy : ∀ a b : ℝ, c.boundary.minY = a → c.boundary.maxY = b → a ≤ b)
    (hdir : c.dirx ^ 2 + c.diry ^ 2 = 1 ∨ (c.dirx = 0 ∧ c.diry = 0))
    (hs : 0 ≤ c.speed) (hdt : 0 ≤ dt) :
    c.boundary.minX ≤ (c.update dt).x ∧ (c.update dt).x ≤ c.boundary.maxX ∧
    c.boundary.minY ≤ (c.update dt).y ∧ (c.update dt).y ≤ c.boundary.maxY := by
  have hxle := boundsLe hxm hxM hx
  have hyle := boundsLe hym hyM hy
  have hX := clamp_mem hxle (c.x + ((c.dirx * c.speed * (dt / 1000) : ℝ) : EReal))
  have hY := clamp_mem hyle (c.y + ((c.diry * c.speed * (dt / 1000) : ℝ) : EReal))
  exact ⟨hX.1, hX.2, hY.1, hY.2⟩

/-- A character in an 800 × 600 box moving left at speed 100. -/
noncomputable def c1 : Character :=
  { x := ((0 : ℝ) : EReal), y := ((0 : ℝ) : EReal), speed := 100,
    dirx := -1, diry := 0,
    boundary := { minX := ((0 : ℝ) : EReal), maxX := ((800 : ℝ) : EReal),
                  minY := ((0 : ℝ) : EReal), maxY := ((600 : ℝ) : EReal) } }

/-- Witness for C1 at the concrete character `c1` and `deltaTimeMs = 1000`. -/
theorem update_within_boundary_witness :
    c1.boundary.minX ≤ (c1.update 1000).x ∧ (c1.update 1000).x ≤ c1.boundary.maxX ∧
    c1.boundary.minY ≤ (c1.update 1000).y ∧ (c1.update 1000).y ≤ c1.boundary.maxY :=
  update_within_boundary c1 1000
    (EReal.coe_ne_top 0) (EReal.coe_ne_bot 800)
    (fun a b ha hb => by
      have ha' : (0 : ℝ) = a := EReal.coe_eq_coe_iff.mp ha
      have hb' : (800 : ℝ) = b := EReal.coe_eq_coe_iff.mp hb
      rw [← ha', ← hb']; norm_num)
    (EReal.coe_ne_top 0) (EReal.coe_ne_bot 600)
    (fun a b ha hb => by
      have ha' : (0 : ℝ) = a := EReal.coe_eq_coe_iff.mp ha
      have hb' : (600 : ℝ) = b := EReal.coe_eq_coe_iff.mp hb
      rw [← ha', ← hb']; norm_num)
    (Or.inl (by norm_num [c1])) (by norm_num [c1]) (by norm_num)

/-- C7: an unbounded side of an axis never clamps: with `minX = -∞` the new
x-coordinate is the candidate `x + dirx*speed*(dt/1000)` whenever the
candidate does not exceed a finite `maxX` (and symmetrically with
`maxX = +∞`), likewise for y; the constructor installs the all-infinite
default boundary when none is given, and with that boundary the result is
always exactly the unclamped candidate on both axes. -/
theorem unbounded_axis_never_clamps (c : Character) (dt : ℝ) :
    (c.boundary.minX = ⊥ →
      c.x + ((c.dirx * c.speed * (dt / 1000) : ℝ) : EReal) ≤ c.boundary.maxX →
      (c.update dt).x = c.x + ((c.dirx * c.speed * (dt / 1000) : ℝ) : EReal)) ∧
    (c.boundary.maxX = ⊤ →
      c.boundary.minX ≤ c.x + ((c.dirx * c.speed * (dt / 1000) : ℝ) : EReal) →
      (c.update dt).x = c.x + ((c.dirx * c.speed * (dt / 1000) : ℝ) : EReal)) ∧
    (c.boundary.minY = ⊥ →
      c.y + ((c.diry * c.speed * (dt / 1000) : ℝ) : EReal) ≤ c.boundary.maxY →
      (c.update dt).y = c.y + ((c.diry * c.speed * (dt / 1000) : ℝ) : EReal)) ∧
    (c.boundary.maxY = ⊤ →
      c.boundary.minY ≤ c.y + ((c.diry * c.speed * (dt / 1000) : ℝ) : EReal) →
      (c.update dt).y = c.y + ((c.diry * c.speed * (dt / 1000) : ℝ) : EReal)) ∧
    (∀ sx sy sp, (mkCharacter sx sy sp none).boundary = defaultBoundary) ∧
    (c.boundary = defaultBoundary →
      (c.update dt).x = c.x + ((c.dirx * c.speed * (dt / 1000) : ℝ) : EReal) ∧
      (c.update dt).y = c.y + ((c.diry * c.speed * (dt / 1000) : ℝ) : EReal)) := by
  refine ⟨fun hbot hle => ?_, fun htop hge => ?_, fun hbot hle => ?_,
    fun htop hge => ?_, fun sx sy sp => rfl, fun hdef => ⟨?_, ?_⟩⟩ <;>
    simp only [Character.update]
  · rw [hbot, max_eq_right bot_le, min_eq_right hle]
  · rw [htop, min_eq_right le_top, max_eq_right hge]
  · rw [hbot, max_eq_right bot_le, min_eq_right hle]
  · rw [htop, min_eq_right le_top, max_eq_right hge]
  · rw [hdef]
    show max ⊥ (min ⊤ _) = _
    rw [max_eq_right bot_le, min_eq_right le_top]
  · rw [hdef]
    show max ⊥ (min ⊤ _) = _
    rw [max_eq_right bot_le, min_eq_right le_top]

/-- A character with `minX = -∞`, `maxX = 800`, unbounded y, moving right. -/
noncomputable def c2 : Character :=
  { x := ((0 : ℝ) : EReal), y := ((0 : ℝ) : EReal), speed := 10,
    dirx := 1, diry := 0,
    boundary := { minX := ⊥, maxX := ((800 : ℝ) : EReal), minY := ⊥, maxY := ⊤ } }

/-- Witness for C7 at the concrete character `c2` and `deltaTimeMs = 500`. -/
theorem unbounded_axis_never_clamps_witness :
    (c2.update 500).x = c2.x + ((c2.dirx * c2.speed * (500 / 1000) : ℝ) : EReal) :=
  (unbounded_axis_never_clamps c2 500).1 rfl (by
    show ((0 : ℝ) : EReal) + ((1 * 10 * (500 / 1000) : ℝ) : EReal) ≤ ((800 : ℝ) : EReal)
    rw [← EReal.coe_add]
    exact EReal.coe_le_coe_iff.mpr (by norm_num))

/-- The per-axis clamp of `update` is idempotent, for any bounds. -/
lemma clamp_idem (lo hi v : EReal) :
    max lo (min hi (max lo (min hi v))) = max lo (min hi v) := by
  rcases le_total lo (min hi v) with h | h
  · rw [max_eq_right h, min_eq_right (min_le_left hi v), max_eq_right h]
  · rw [max_eq_left h]
    rcases le_total hi lo with h2 | h2
    · rw [min_eq_left h2, max_eq_left h2]
    · rw [min_eq_right h2, max_self]

/-- A character standing outside its boundary with zero direction. -/
noncomputable def c3 : Character :=
  { x := ((1000 : ℝ) : EReal), y := ((0 : ℝ) : EReal), speed := 5,
    dirx := 0, diry := 0,
    boundary := { minX := ⊥, maxX := ((800 : ℝ) : EReal), minY := ⊥, maxY := ⊤ } }

/-- C3 counterexample: with zero direction but a starting position outside
the boundary (`x = 1000`, `maxX = 800`), the first `update` call changes
the position — it clamps it to `800`. -/
theorem update_zero_direction_counterexample :
    c3.dirx = 0 ∧ c3.diry = 0 ∧ (c3.update 1000).x ≠ c3.x := by
  refine ⟨rfl, rfl, ?_⟩
  show max ⊥ (min ((800 : ℝ) : EReal)
      (((1000 : ℝ) : EReal) + ((0 * 5 * ((1000 : ℝ) / 1000) : ℝ) : EReal))) ≠
    ((1000 : ℝ) : EReal)
  rw [show ((0 * 5 * ((1000 : ℝ) / 1000) : ℝ) : EReal) = ((0 : ℝ) : EReal) by norm_num,
    ← EReal.coe_add, max_eq_right bot_le,
    min_eq_left (EReal.coe_le_coe_iff.mpr (by norm_num))]
  exact fun h => absurd (EReal.coe_eq_coe_iff.mp h) (by norm_num)

/-- C3 (amended): with zero direction, each `update` call returns the
clamped input position; hence the position is unchanged whenever it lies
within the boundary, and any repeated call after the first never changes
it again. -/
theorem update_zero_direction_clamps (c : Character) (dt dt' : ℝ)
    (hdx : c.dirx = 0) (hdy : c.diry = 0) (hdt : 0 ≤ dt) (hdt' : 0 ≤ dt') :
    (c.update dt).x = max c.boundary.minX (min c.boundary.maxX c.x) ∧
    (c.update dt).y = max c.boundary.minY (min c.boundary.maxY c.y) ∧
    (c.boundary.minX ≤ c.x → c.x ≤ c.boundary.maxX →
      c.boundary.minY ≤ c.y → c.y ≤ c.boundary.maxY →
      (c.update dt).x = c.x ∧ (c.update dt).y = c.y) ∧
    ((c.update dt).update dt').x = (c.update dt).x ∧
    ((c.update dt).update dt').y = (c.update dt).y := by
  have hmx : ((c.dirx * c.speed * (dt / 1000) : ℝ) : EReal) = ((0 : ℝ) : EReal) := by
    rw [hdx]; norm_num
  have hmy : ((c.diry * c.speed * (dt / 1000) : ℝ) : EReal) = ((0 : ℝ) : EReal) := by
    rw [hdy]; norm_num
  have hmx' : ((c.dirx * c.speed * (dt' / 1000) : ℝ) : EReal) = ((0 : ℝ) : EReal) := by
    rw [hdx]; norm_num
  have hmy' : ((c.diry * c.speed * (dt' / 1000) : ℝ) : EReal) = ((0 : ℝ) : EReal) := by
    rw [hdy]; norm_num
  have hx : (c.update dt).x = max c.boundary.minX (min c.boundary.maxX c.x) := by
    show max _ (min _ (c.x + _)) = _
    rw [hmx, EReal.coe_zero, add_zero]
  have hy : (c.update dt).y = max c.boundary.minY (min c.boundary.maxY c.y) := by
    show max _ (min _ (c.y + _)) = _
    rw [hmy, EReal.coe_zero, add_zero]
  refine ⟨hx, hy, fun h1 h2 h3 h4 => ⟨?_, ?_⟩, ?_, ?_⟩
  · rw [hx, min_eq_right h2, max_eq_right h1]
  · rw [hy, min_eq_right h4, max_eq_right h3]
  · show max _ (min _ ((c.update dt).x + _)) = _
    simp only [show (c.update dt).dirx = c.dirx from rfl,
      show (c.update dt).speed = c.speed from rfl,
      show (c.update dt).boundary = c.boundary from rfl]
    rw [hmx', EReal.coe_zero, add_zero, hx]
    exact clamp_idem _ _ _
  · show max _ (min _ ((c.update dt).y + _)) = _
    simp only [show (c.update dt).diry = c.diry from rfl,
      show (c.update dt).speed = c.speed from rfl,
      show (c.update dt).boundary = c.boundary from rfl]
    rw [hmy', EReal.coe_zero, add_zero, hy]
    exact clamp_idem _ _ _

/-- A character with zero direction standing inside an 800 × 600 box. -/
noncomputable def c3in : Character :=
  { x := ((5 : ℝ) : EReal), y := ((6 : ℝ) : EReal), speed := 5,
    dirx := 0, diry := 0,
    boundary := { minX := ((0 : ℝ) : EReal), maxX := ((800 : ℝ) : EReal),
                  minY := ((0 : ℝ) : EReal), maxY := ((600 : ℝ) : EReal) } }

/-- Witness for the amended C3 at the concrete character `c3in`. -/
theorem update_zero_direction_clamps_witness :
    (c3in.update 1000).x = max c3in.boundary.minX (min c3in.boundary.maxX c3in.x) ∧
    (c3in.update 1000).y = max c3in.boundary.minY (min c3in.boundary.maxY c3in.y) ∧
    (c3in.boundary.minX ≤ c3in.x → c3in.x ≤ c3in.boundary.maxX →
      c3in.boundary.minY ≤ c3in.y → c3in.y ≤ c3in.boundary.maxY →
      (c3in.update 1000).x = c3in.x ∧ (c3in.update 1000).y = c3in.y) ∧
    ((c3in.update 1000).update 400).x = (c3in.update 1000).x ∧
    ((c3in.update 1000).update 400).y = (c3in.update 1000).y :=
  update_zero_direction_clamps c3in 1000 400 rfl rfl (by norm_num) (by norm_num)

/-- A character outside its boundary with a nonzero direction. -/
noncomputable def c4 : Character :=
  { x := ((1000 : ℝ) : EReal), y := ((0 : ℝ) : EReal), speed := 5,
    dirx := 1, diry := 0,
    boundary := { minX := ⊥, maxX := ((800 : ℝ) : EReal), minY := ⊥, maxY := ⊤ } }

/-- C4 counterexample: with `deltaTimeMs = 0` the displacement is zero, yet
`update` still changes the position of a character standing outside its
boundary (`x = 1000`, `maxX = 800` becomes `x = 800`). -/
theorem update_zero_dt_counterexample :
    (c4.update 0).x ≠ c4.x := by
  show max ⊥ (min ((800 : ℝ) : EReal)
      (((1000 : ℝ) : EReal) + ((1 * 5 * ((0 : ℝ) / 1000) : ℝ) : EReal))) ≠
    ((1000 : ℝ) : EReal)
  rw [show ((1 * 5 * ((0 : ℝ) / 1000) : ℝ) : EReal) = ((0 : ℝ) : EReal) by norm_num,
    ← EReal.coe_add, max_eq_right bot_le,
    min_eq_left (EReal.coe_le_coe_iff.mpr (by norm_num))]
  exact fun h => absurd (EReal.coe_eq_coe_iff.mp h) (by norm_num)

/-- C4 (amended): with `deltaTimeMs = 0`, or with `speed = 0` and any
`deltaTimeMs ≥ 0`, the displacement is zero: `update` returns the clamped
input position, which equals the input position whenever that position
already lies within the boundary. -/
theorem update_no_movement_clamps (c : Character) (dt : ℝ)
    (h : dt = 0 ∨ c.speed = 0) (hdt : 0 ≤ dt) :
    (c.update dt).x = max c.boundary.minX (min c.boundary.maxX c.x) ∧
    (c.update dt).y = max c.boundary.minY (min c.boundary.maxY c.y) ∧
    (c.boundary.minX ≤ c.x → c.x ≤ c.boundary.maxX →
      c.boundary.minY ≤ c.y → c.y ≤ c.boundary.maxY →
      (c.update dt).x = c.x ∧ (c.update dt).y = c.y) := by
  have hmx : ((c.dirx * c.speed * (dt / 1000) : ℝ) : EReal) = ((0 : ℝ) : EReal) := by
    rcases h with h | h <;> rw [h] <;> norm_num
  have hmy : ((c.diry * c.speed * (dt / 1000) : ℝ) : EReal) = ((0 : ℝ) : EReal) := by
    rcases h with h | h <;> rw [h] <;> norm_num
  have hx : (c.update dt).x = max c.boundary.minX (min c.boundary.maxX c.x) := by
    show max _ (min _ (c.x + _)) = _
    rw [hmx, EReal.coe_zero, add_zero]
  have hy : (c.update dt).y = max c.boundary.minY (min c.boundary.maxY c.y) := by
    show max _ (min _ (c.y + _)) = _
    rw [hmy, EReal.coe_zero, add_zero]
  refine ⟨hx, hy, fun h1 h2 h3 h4 => ⟨?_, ?_⟩⟩
  · rw [hx, min_eq_right h2, max_eq_right h1]
  · rw [hy, min_eq_right h4, max_eq_right h3]

/-- A character inside an 800 × 600 box moving right at speed 100. -/
noncomputable def c4in : Character :=
  { x := ((5 : ℝ) : EReal), y := ((6 : ℝ) : EReal), speed := 100,
    dirx := 1, diry := 0,
    boundary := { minX := ((0 : ℝ) : EReal), maxX := ((800 : ℝ) : EReal),
                  minY := ((0 : ℝ) : EReal), maxY := ((600 : ℝ) : EReal) } }

/-- Witness for the amended C4 at the concrete character `c4in` with
`deltaTimeMs = 0`. -/
theorem update_no_movement_clamps_witness :
    (c4in.update 0).x = max c4in.boundary.minX (min c4in.boundary.maxX c4in.x) ∧
    (c4in.update 0).y = max c4in.boundary.minY (min c4in.boundary.maxY c4in.y) ∧
    (c4in.boundary.minX ≤ c4in.x → c4in.x ≤ c4in.boundary.maxX →
      c4in.boundary.minY ≤ c4in.y → c4in.y ≤ c4in.boundary.maxY →
      (c4in.update 0).x = c4in.x ∧ (c4in.update 0).y = c4in.y) :=
  update_no_movement_clamps c4in 0 (Or.inl rfl) le_rfl

/-- C2: if `sqrt(dx² + dy²) > 0`, `setDirection` stores
`(dx/len, dy/len)`, a vector of magnitude exactly 1; on input `(0, 0)` it
stores exactly `(0, 0)`; so after any call the stored direction's
magnitude is exactly 1 or exactly 0. -/
theorem setDirection_normalizes (c : Character) (dx dy : ℝ) :
    (0 < Real.sqrt (dx * dx + dy * dy) →
      (c.setDirection dx dy).dirx = dx / Real.sqrt (dx * dx + dy * dy) ∧
      (c.setDirection dx dy).diry = dy / Real.sqrt (dx * dx + dy * dy) ∧
      Real.sqrt ((c.setDirection dx dy).dirx ^ 2 + (c.setDirection dx dy).diry ^ 2) = 1) ∧
    (dx = 0 ∧ dy = 0 →
      (c.setDirection dx dy).dirx = 0 ∧ (c.setDirection dx dy).diry = 0) ∧
    (Real.sqrt ((c.setDirection dx dy).dirx ^ 2 + (c.setDirection dx dy).diry ^ 2) = 1 ∨
     Real.sqrt ((c.setDirection dx dy).dirx ^ 2 + (c.setDirection dx dy).diry ^ 2) = 0) := by
  by_cases hL : 0 < Real.sqrt (dx * dx + dy * dy)
  · have hsd : c.setDirection dx dy =
        { c with dirx := dx / Real.sqrt (dx * dx + dy * dy),
                 diry := dy / Real.sqrt (dx * dx + dy * dy) } := by
      simp only [Character.setDirection]
      rw [if_pos hL]
    have hLne : Real.sqrt (dx * dx + dy * dy) ≠ 0 := ne_of_gt hL
    have hL2 : Real.sqrt (dx * dx + dy * dy) ^ 2 = dx * dx + dy * dy :=
      Real.sq_sqrt (add_nonneg (mul_self_nonneg dx) (mul_self_nonneg dy))
    have hmag : Real.sqrt ((dx / Real.sqrt (dx * dx + dy * dy)) ^ 2 +
        (dy / Real.sqrt (dx * dx + dy * dy)) ^ 2) = 1 := by
      have h1 : (dx / Real.sqrt (dx * dx + dy * dy)) ^ 2 +
          (dy / Real.sqrt (dx * dx + dy * dy)) ^ 2 = 1 := by
        field_simp
        rw [hL2]; ring
      rw [h1, Real.sqrt_one]
    refine ⟨fun _ => ⟨by rw [hsd], by rw [hsd], by rw [hsd]; exact hmag⟩,
      fun h0 => absurd hL ?_, Or.inl (by rw [hsd]; exact hmag)⟩
    rw [h0.1, h0.2]
    simp
  · have hsd : c.setDirection dx dy = { c with dirx := 0, diry := 0 } := by
      simp only [Character.setDirection]
      rw [if_neg hL]
    refine ⟨fun h => absurd h hL, fun _ => ⟨by rw [hsd], by rw [hsd]⟩, Or.inr ?_⟩
    rw [hsd]
    show Real.sqrt ((0 : ℝ) ^ 2 + (0 : ℝ) ^ 2) = 0
    simp

/-- Witness for C2 at the nonzero input `(3, 4)` (length `5`). -/
theorem setDirection_normalizes_witness :
    (c1.setDirection 3 4).dirx = 3 / Real.sqrt (3 * 3 + 4 * 4) ∧
    (c1.setDirection 3 4).diry = 4 / Real.sqrt (3 * 3 + 4 * 4) ∧
    Real.sqrt ((c1.setDirection 3 4).dirx ^ 2 + (c1.setDirection 3 4).diry ^ 2) = 1 :=
  (setDirection_normalizes c1 3 4).1 (Real.sqrt_pos.mpr (by norm_num))

/-- C5: `isCollidingWith` holds iff the Euclidean distance
`sqrt((ax-bx)² + (ay-by)²)` is strictly less than `radius * 2`; it is
symmetric in the two points; with the default radius 32, `(0,0)` and
`(50,0)` collide (distance `50 < 64`) while `(0,0)` and `(70,0)` do not
(distance `70 ≥ 64`). -/
theorem isCollidingWith_iff_dist (a b : ℝ × ℝ) (radius : ℝ) :
    (isCollidingWith a b radius ↔
      Real.sqrt ((a.1 - b.1) ^ 2 + (a.2 - b.2) ^ 2) < radius * 2) ∧
    (isCollidingWith a b radius ↔ isCollidingWith b a radius) ∧
    isCollidingWith (0, 0) (50, 0) ∧
    ¬ isCollidingWith (0, 0) (70, 0) := by
  refine ⟨?_, ?_, ?_, ?_⟩
  · rw [isCollidingWith, show (a.1 - b.1) * (a.1 - b.1) + (a.2 - b.2) * (a.2 - b.2)
      = (a.1 - b.1) ^ 2 + (a.2 - b.2) ^ 2 by ring]
  · rw [isCollidingWith, isCollidingWith,
      show (a.1 - b.1) * (a.1 - b.1) + (a.2 - b.2) * (a.2 - b.2)
        = (b.1 - a.1) * (b.1 - a.1) + (b.2 - a.2) * (b.2 - a.2) by ring]
  · show Real.sqrt (((0 : ℝ) - 50) * ((0 : ℝ) - 50) + ((0 : ℝ) - 0) * ((0 : ℝ) - 0))
      < 32 * 2
    rw [show ((0 : ℝ) - 50) * ((0 : ℝ) - 50) + ((0 : ℝ) - 0) * ((0 : ℝ) - 0)
      = (50 : ℝ) ^ 2 by norm_num, Real.sqrt_sq (by norm_num : (0 : ℝ) ≤ 50)]
    norm_num
  · show ¬ Real.sqrt (((0 : ℝ) - 70) * ((0 : ℝ) - 70) + ((0 : ℝ) - 0) * ((0 : ℝ) - 0))
      < 32 * 2
    rw [show ((0 : ℝ) - 70) * ((0 : ℝ) - 70) + ((0 : ℝ) - 0) * ((0 : ℝ) - 0)
      = (70 : ℝ) ^ 2 by norm_num, Real.sqrt_sq (by norm_num : (0 : ℝ) ≤ 70)]
    norm_num

/-- A character at `(0, 0)` with speed 10 and the constructor's default
(unbounded) boundary. -/
noncomputable def c8 : Character := mkCharacter ((0 : ℝ) : EReal) ((0 : ℝ) : EReal) 10 none

/-- C8: from `(0, 0)` with an unbounded boundary, `setDirection(1, 1)`
stores exactly `(1/√2, 1/√2)` (approximately `0.7071` per component), and
`update` with speed 10 and `deltaTimeMs = 1000` moves to exactly
`(10/√2, 10/√2)`, approximately `(7.071, 7.071)`; the straight-line
distance covered is exactly `10`, the same linear distance per second as
axis-aligned movement at speed 10. -/
theorem diagonal_speed_example :
    (c8.setDirection 1 1).dirx = 1 / Real.sqrt 2 ∧
    (c8.setDirection 1 1).diry = 1 / Real.sqrt 2 ∧
    |(1 : ℝ) / Real.sqrt 2 - 0.7071| < 0.0001 ∧
    ((c8.setDirection 1 1).update 1000).x = ((10 / Real.sqrt 2 : ℝ) : EReal) ∧
    ((c8.setDirection 1 1).update 1000).y = ((10 / Real.sqrt 2 : ℝ) : EReal) ∧
    |(10 : ℝ) / Real.sqrt 2 - 7.071| < 0.001 ∧
    Real.sqrt ((10 / Real.sqrt 2) ^ 2 + (10 / Real.sqrt 2) ^ 2) = 10 := by
  have h2 : ((1 : ℝ) * 1 + 1 * 1) = 2 := by norm_num
  have hL : 0 < Real.sqrt ((1 : ℝ) * 1 + 1 * 1) := by
    rw [h2]; exact Real.sqrt_pos.mpr (by norm_num)
  have hs2 : 0 < Real.sqrt 2 := Real.sqrt_pos.mpr (by norm_num)
  have hsd : c8.setDirection 1 1 =
      { c8 with dirx := 1 / Real.sqrt 2, diry := 1 / Real.sqrt 2 } := by
    simp only [Character.setDirection]
    rw [if_pos hL, h2]
  have hlo : (1.41421 : ℝ) < Real.sqrt 2 :=
    (Real.lt_sqrt (by norm_num)).mpr (by norm_num)
  have hhi : Real.sqrt 2 < 1.41422 :=
    (Real.sqrt_lt' (by norm_num)).mpr (by norm_num)
  have hmv : (1 / Real.sqrt 2) * 10 * ((1000 : ℝ) / 1000) = 10 / Real.sqrt 2 := by
    rw [show ((1000 : ℝ) / 1000) = 1 by norm_num]; ring
  have hupd : ∀ v : EReal, max (⊥ : EReal) (min (⊤ : EReal) v) = v := fun v => by
    rw [min_eq_right le_top, max_eq_right bot_le]
  have h1 : (1 / Real.sqrt 2) * Real.sqrt 2 = 1 := by
    field_simp
  have h10 : (10 / Real.sqrt 2) * Real.sqrt 2 = 10 := by
    field_simp
  have ht : 0 < 1 / Real.sqrt 2 := one_div_pos.mpr hs2
  have ht10 : 0 < 10 / Real.sqrt 2 := div_pos (by norm_num) hs2
  have hrec : c8.setDirection 1 1 =
      { x := ((0 : ℝ) : EReal), y := ((0 : ℝ) : EReal), speed := 10,
        dirx := 1 / Real.sqrt 2, diry := 1 / Real.sqrt 2,
        boundary := defaultBoundary } := by
    rw [hsd]; rfl
  refine ⟨by rw [hsd], by rw [hsd], ?_, ?_, ?_, ?_, ?_⟩
  · rw [abs_lt]
    constructor
    · nlinarith [h1, hlo, hhi, ht]
    · nlinarith [h1, hlo, hhi, ht]
  · rw [hrec]
    show max (⊥ : EReal) (min (⊤ : EReal) (((0 : ℝ) : EReal) +
        ((1 / Real.sqrt 2 * 10 * ((1000 : ℝ) / 1000) : ℝ) : EReal))) =
      ((10 / Real.sqrt 2 : ℝ) : EReal)
    rw [hmv, hupd, ← EReal.coe_add, zero_add]
  · rw [hrec]
    show max (⊥ : EReal) (min (⊤ : EReal) (((0 : ℝ) : EReal) +
        ((1 / Real.sqrt 2 * 10 * ((1000 : ℝ) / 1000) : ℝ) : EReal))) =
      ((10 / Real.sqrt 2 : ℝ) : EReal)
    rw [hmv, hupd, ← EReal.coe_add, zero_add]
  · rw [abs_lt]
    constructor
    · nlinarith [h10, hlo, hhi, ht10]
    · nlinarith [h10, hlo, hhi, ht10]
  · have hsq : (10 / Real.sqrt 2) ^ 2 + (10 / Real.sqrt 2) ^ 2 = 100 := by
      rw [div_pow, Real.sq_sqrt (by norm_num : (0 : ℝ) ≤ 2)]
      norm_num
    rw [hsq, show (100 : ℝ) = 10 ^ 2 by norm_num,
      Real.sqrt_sq (by norm_num : (0 : ℝ) ≤ 10)]

/-- A common starting state for comparing the two update variants:
origin, direction `(1, 0)`, speed 10, unbounded boundary. -/
noncomputable def c9 : Character :=
  { x := ((0 : ℝ) : EReal), y := ((0 : ℝ) : EReal), speed := 10,
    dirx := 1, diry := 0, boundary := defaultBoundary }

/-- C9: the delta-time-scaled `update` of `src/src/Character.js` and the
fixed-step `update` of `src/unnamed/part_000` are not equivalent: from the
common state `c9` with `deltaTimeMs = 500` the scaled variant moves to
`x = 5` — exactly `dirx * speed * (deltaTimeMs / 1000)`, as the contract
specifies — while the fixed variant, which ignores delta time, moves to
`x = 10`. -/
theorem update_variants_differ :
    (c9.update 500).x = c9.x + ((c9.dirx * c9.speed * (500 / 1000) : ℝ) : EReal) ∧
    (c9.update 500).x = ((5 : ℝ) : EReal) ∧
    c9.updateFixed.x = ((10 : ℝ) : EReal) ∧
    (c9.update 500).x ≠ c9.updateFixed.x := by
  have hd : (c9.update 500).x = ((5 : ℝ) : EReal) := by
    show max (⊥ : EReal) (min (⊤ : EReal) (((0 : ℝ) : EReal) +
        ((1 * 10 * ((500 : ℝ) / 1000) : ℝ) : EReal))) = ((5 : ℝ) : EReal)
    rw [show (1 * 10 * ((500 : ℝ) / 1000) : ℝ) = 5 by norm_num,
      min_eq_right le_top, max_eq_right bot_le, ← EReal.coe_add, zero_add]
  have hcontract : (c9.update 500).x =
      c9.x + ((c9.dirx * c9.speed * (500 / 1000) : ℝ) : EReal) := by
    show max (⊥ : EReal) (min (⊤ : EReal) (c9.x + _)) = _
    rw [min_eq_right le_top, max_eq_right bot_le]
  have hf : c9.updateFixed.x = ((10 : ℝ) : EReal) := by
    simp only [Character.updateFixed, c9, defaultBoundary]
    rw [if_neg (by norm_num : ¬ (1 : ℝ) < 0), if_pos (by norm_num : (1 : ℝ) > 0),
      min_eq_right le_top, ← EReal.coe_add, zero_add]
  refine ⟨hcontract, hd, hf, ?_⟩
  rw [hd, hf]
  exact fun h => absurd (EReal.coe_eq_coe_iff.mp h) (by norm_num)

/-- C10: `update` changes only the position: speed, direction and boundary
are untouched; `setDirection` changes only the direction and `setSpeed`
only the speed, so no operation other than `update` alters the position. -/
theorem operations_touch_only_their_fields (c : Character) (dt dx dy ns : ℝ) :
    ((c.update dt).speed = c.speed ∧ (c.update dt).dirx = c.dirx ∧
      (c.update dt).diry = c.diry ∧ (c.update dt).boundary = c.boundary) ∧
    ((c.setDirection dx dy).x = c.x ∧ (c.setDirection dx dy).y = c.y ∧
      (c.setDirection dx dy).speed = c.speed ∧
      (c.setDirection dx dy).boundary = c.boundary) ∧
    ((c.setSpeed ns).x = c.x ∧ (c.setSpeed ns).y = c.y ∧
      (c.setSpeed ns).dirx = c.dirx ∧ (c.setSpeed ns).diry = c.diry ∧
      (c.setSpeed ns).boundary = c.boundary) := by
  refine ⟨⟨rfl, rfl, rfl, rfl⟩, ?_, ⟨rfl, rfl, rfl, rfl, rfl⟩⟩
  by_cases h : Real.sqrt (dx * dx + dy * dy) > 0
  · simp only [Character.setDirection]
    rw [if_pos h]
    exact ⟨rfl, rfl, rfl, rfl⟩
  · simp only [Character.setDirection]
    rw [if_neg h]
    exact ⟨rfl, rfl, rfl, rfl⟩
